import Mathlib

set_option maxRecDepth 8000

/-! Formal model of the WSI viewer backend (`app.py`, `session_manager.py`).

The development shallowly embeds the parts of the code that the checked
properties talk about: byte-range content serving (`serve_raw_slide`),
source resolution (`find_file_in_session`, `list_slides`), the local path
containment check, session creation (`create_session`) and the session
registry (`SessionManager`).

Modelling conventions:
* Python strings are `List Char` (named `Chars`); filesystem paths are
  lists of path segments (`Segs`).  The current working directory is the
  filesystem root, so relative and absolute local paths coincide.
* `datetime.utcnow()` timestamps are integers (seconds); the real clock is
  assumed non-decreasing between successive calls.
* The filesystem and the object store are explicit finite worlds (`FS`,
  `GcsWorld`); there are no symlinks, so `Path.resolve` is the lexical
  collapse of `.` and `..` segments.
* `int(str)` is modelled for ASCII text (optional surrounding whitespace,
  optional sign, digits with single underscores strictly between digits),
  which covers every string an HTTP header can carry in latin-1.
-/

abbrev Chars := List Char

abbrev Segs := List Chars

/-- ASCII lowercasing of one character, modelling Python `str.lower` on
ASCII text (HTTP headers and the GCS URL schemes are ASCII). -/
def asciiLower (c : Char) : Char :=
  if 'A' ≤ c ∧ c ≤ 'Z' then Char.ofNat (c.toNat + 32) else c

/-- `str.lower` on a whole string. -/
def lowerL (s : Chars) : Chars := s.map asciiLower

/-- The whitespace characters stripped by Python `str.strip()` / `int()`. -/
def isPyWs (c : Char) : Bool :=
  c == ' ' || c == '\t' || c == '\n' || c == '\r' || c == Char.ofNat 11 || c == Char.ofNat 12

/-- Python `str.strip()`: drop whitespace from both ends. -/
def trimWs (s : Chars) : Chars :=
  ((s.dropWhile isPyWs).reverse.dropWhile isPyWs).reverse

/-- `listStarts pat s` is true when `pat` is an initial run of `s`
(Python `str.startswith`, and segment-wise `Path.is_relative_to`). -/
def listStarts [BEq α] : List α → List α → Bool
  | [], _ => true
  | _ :: _, [] => false
  | a :: as, b :: bs => a == b && listStarts as bs

/-- Python `s.split(sep)` for a one-character separator. -/
def splitChar (sep : Char) : Chars → List Chars
  | [] => [[]]
  | c :: rest =>
    if c == sep then [] :: splitChar sep rest
    else
      match splitChar sep rest with
      | [] => [[c]]
      | g :: gs => (c :: g) :: gs

/-- Python `s.replace("bytes=", "")`: delete every occurrence of the
literal `bytes=`, scanning left to right (`app.py` lines 673 and 757). -/
def stripBytesMarker : Chars → Chars
  | 'b' :: 'y' :: 't' :: 'e' :: 's' :: '=' :: rest => stripBytesMarker rest
  | c :: rest => c :: stripBytesMarker rest
  | [] => []

/-- Numeric value of an ASCII digit. -/
def digitVal (c : Char) : Nat := c.toNat - 48

/-- Digits after the first one, allowing single underscores strictly
between digits, as Python `int()` does. -/
def pyDigitsTail (acc : Nat) : Chars → Option Nat
  | [] => some acc
  | '_' :: c :: rest => if c.isDigit then pyDigitsTail (acc * 10 + digitVal c) rest else none
  | c :: rest => if c.isDigit then pyDigitsTail (acc * 10 + digitVal c) rest else none

/-- A nonempty digit run with underscores between digits. -/
def pyDigits : Chars → Option Nat
  | c :: rest => if c.isDigit then pyDigitsTail (digitVal c) rest else none
  | [] => none

/-- Sign handling of Python `int()`. -/
def pyIntCore : Chars → Option Int
  | '+' :: rest => (pyDigits rest).map (fun n => (n : Int))
  | '-' :: rest => (pyDigits rest).map (fun n => -(n : Int))
  | s => (pyDigits s).map (fun n => (n : Int))

/-- Python `int(s)`: strip whitespace, optional sign, digits; `none` models
the `ValueError` raised on malformed text. -/
def pyInt (s : Chars) : Option Int := pyIntCore (trimWs s)

/-! ## Byte-range serving (`serve_raw_slide`)

`app.py` repeats the same header parsing and validation for the GCS branch
(lines 672-707) and the local branch (lines 756-791); the shared helpers
below are that duplicated text.  A `ValueError` from `int()` escapes to the
handler's catch-all `except Exception` (lines 798-799), which turns it into
an HTTP 500 `Failed to serve file` response. -/

/-- `range_header.replace('bytes=', '').split('-')`. -/
def rangeParts (h : String) : List Chars := splitChar '-' (stripBytesMarker h.data)

/-- The `Content-Range` header of a 416 response: `bytes */{size}`. -/
def contentRangeStar (n : Int) : String := "bytes */" ++ toString n

/-- The `Content-Range` header of a 206 response: `bytes {s}-{e}/{n}`. -/
def contentRangeStr (s e n : Int) : String :=
  "bytes " ++ toString s ++ "-" ++ toString e ++ "/" ++ toString n

/-- Clamping of the end position: `if end >= file_size: end = file_size - 1`. -/
def clampEnd (n e : Int) : Int := if e ≥ n then n - 1 else e

/-- START and END of a range header against a total size `n`:
`start = int(parts[0]) if parts[0] else 0` and
`end = int(parts[1]) if len(parts) > 1 and parts[1] else n - 1`.
`none` models the `ValueError` raised when either `int()` call fails. -/
def parseStartEnd (n : Int) (h : String) : Option (Int × Int) :=
  let parts := rangeParts h
  let s0 := parts.headD []
  let e0 := parts.getD 1 []
  let sv := if s0 = [] then some 0 else pyInt s0
  let ev := if e0 = [] then some (n - 1) else pyInt e0
  match sv, ev with
  | some a, some b => some (a, b)
  | _, _ => none

/-- Local read `f.seek(start); f.read(end - start + 1)`: the bytes at
offsets `s .. e` inclusive, cut off at the end of the file. -/
def readBytesLocal (content : List Nat) (s e : Int) : List Nat :=
  (content.drop s.toNat).take (e - s + 1).toNat

/-- Remote read `blob.download_as_bytes(start=a, end=b)`.  Modelled from the
documented semantics of google-cloud-storage: `start` and `end` are both
inclusive byte positions (they are placed verbatim into an HTTP `Range`
header), and the server cuts the range off at the end of the object.  Note
that `app.py` passes `end + 1` here in the belief that `end` is exclusive. -/
def gcsDownloadBytes (content : List Nat) (a b : Int) : List Nat :=
  (content.drop a.toNat).take (b - a + 1).toNat

/-- Outcome of one `serve_raw_slide` content response. -/
inductive RangeResp where
  | fullContent
  | partialContent (body : List Nat) (contentLength : Nat) (contentRange : String)
  | rangeNotSatisfiable (contentRange : String)
  | httpError (code : Nat)
deriving DecidableEq

/-- Body carried by a response; 416 and error responses have an empty body
(`Response(status_code=416, headers=...)` sends no content). -/
def respBody : RangeResp → List Nat
  | .partialContent b _ _ => b
  | _ => []

/-- The local branch of `serve_raw_slide` with a range header present
(`app.py` lines 756-792). -/
def serveLocalRangeWith (content : List Nat) (h : String) : RangeResp :=
  let n : Int := content.length
  match parseStartEnd n h with
  | none => .httpError 500
  | some (s, e0) =>
    if s ≥ n ∨ s < 0 then .rangeNotSatisfiable (contentRangeStar n)
    else if s > clampEnd n e0 then .rangeNotSatisfiable (contentRangeStar n)
    else
      .partialContent (readBytesLocal content s (clampEnd n e0))
        (readBytesLocal content s (clampEnd n e0)).length
        (contentRangeStr s (clampEnd n e0) n)

/-- The local branch of `serve_raw_slide` given the backing file's bytes:
`if range_header:` treats an absent or empty header as a full response. -/
def serveLocalRange (content : List Nat) (rangeHeader : Option String) : RangeResp :=
  match rangeHeader with
  | none => .fullContent
  | some h => if h = "" then .fullContent else serveLocalRangeWith content h

/-- The GCS branch of `serve_raw_slide` with a range header present
(`app.py` lines 672-708); the body is fetched with
`blob.download_as_bytes(start=start, end=end + 1)`. -/
def serveGcsRangeWith (content : List Nat) (h : String) : RangeResp :=
  let n : Int := content.length
  match parseStartEnd n h with
  | none => .httpError 500
  | some (s, e0) =>
    if s ≥ n ∨ s < 0 then .rangeNotSatisfiable (contentRangeStar n)
    else if s > clampEnd n e0 then .rangeNotSatisfiable (contentRangeStar n)
    else
      .partialContent (gcsDownloadBytes content s (clampEnd n e0 + 1))
        (gcsDownloadBytes content s (clampEnd n e0 + 1)).length
        (contentRangeStr s (clampEnd n e0) n)

/-- The GCS branch of `serve_raw_slide`: an empty (or `None`-sized) blob is
rejected with 404 before any range handling (`app.py` lines 666-667). -/
def serveGcsRange (content : List Nat) (rangeHeader : Option String) : RangeResp :=
  if content.length = 0 then .httpError 404
  else
    match rangeHeader with
    | none => .fullContent
    | some h => if h = "" then .fullContent else serveGcsRangeWith content h

/-- A concrete ten-byte object used by the concrete evaluations below. -/
def demo10 : List Nat := [0, 1, 2, 3, 4, 5, 6, 7, 8, 9]

/-! ## Local filesystem, GCS world, and path handling -/

/-- A local filesystem world: existing regular files (resolved absolute
path with size) and existing directories. -/
structure FS where
  files : List (Segs × Nat)
  dirs : List Segs
deriving DecidableEq

/-- The GCS environment: whether a usable client exists (`GCS_AVAILABLE`
and `gcs_client is not None`), and the existing blobs as
(bucket, object name, size) triples. -/
structure GcsWorld where
  available : Bool
  blobs : List (Chars × Chars × Nat)
deriving DecidableEq

/-- Segments of a path string: split on `/`, dropping empty segments. -/
def pathSegs (s : Chars) : Segs := (splitChar '/' s).filter (fun seg => !seg.isEmpty)

/-- Worker for `Path.resolve()` without symlinks; `acc` holds the already
resolved segments in reverse order, so `..` pops its head and `..` at the
root is a no-op. -/
def resolveAux (acc : Segs) : Segs → Segs
  | [] => acc.reverse
  | s :: rest =>
    if s = ['.'] then resolveAux acc rest
    else if s = ['.', '.'] then resolveAux acc.tail rest
    else resolveAux (s :: acc) rest

/-- `Path.resolve()` without symlinks: collapse `.` and `..` lexically. -/
def resolveSegs (p : Segs) : Segs := resolveAux [] p

/-- `Path(base) / filename`: an absolute filename replaces the base. -/
def pyJoin (base : Segs) (fn : Chars) : Segs :=
  if fn.head? = some '/' then pathSegs fn else base ++ pathSegs fn

/-- The last segment of a raw path (`Path.name`); empty for the root. -/
def lastSegName (p : Segs) : Chars := p.getLastD []

/-- Membership of a resolved path among the world's regular files. -/
def memFiles (fs : FS) (q : Segs) : Bool := (fs.files.map Prod.fst).contains q

/-- `Path.exists()`: the OS resolves the path, then checks for a regular
file or a directory. -/
def existsFS (fs : FS) (p : Segs) : Bool :=
  memFiles fs (resolveSegs p) || fs.dirs.contains (resolveSegs p)

/-- `stat().st_size` of a resolved file path (0 if absent). -/
def fileSizeFS (fs : FS) (q : Segs) : Nat :=
  match fs.files.find? (fun e => e.1 == q) with
  | some e => e.2
  | none => 0

/-- `is_gcs_path` (`session_manager.py` lines 21-29): case-insensitive
scheme check after stripping whitespace. -/
def isGcsPathL (s : Chars) : Bool :=
  let p := lowerL (trimWs s)
  listStarts ("gs://".data) p || listStarts ("gcs://".data) p ||
    listStarts ("https://storage.googleapis.com/".data) p ||
    listStarts ("https://storage.cloud.google.com/".data) p

/-- `is_gcs_path` on a `String`. -/
def isGcsPath (s : String) : Bool := isGcsPathL s.data

/-- Split at the first occurrence of `pat` (Python `s.split(pat, 1)`),
returning the pieces before and after; `none` when `pat` is absent. -/
def splitOnceSub (pat : Chars) : Chars → Option (Chars × Chars)
  | [] => if pat = [] then some ([], []) else none
  | c :: rest =>
    if listStarts pat (c :: rest) then some ([], (c :: rest).drop pat.length)
    else (splitOnceSub pat rest).map (fun pr => (c :: pr.1, pr.2))

/-- Python `s.strip("/")`. -/
def stripSlashes (s : Chars) : Chars :=
  ((s.dropWhile (fun c => c == '/')).reverse.dropWhile (fun c => c == '/')).reverse

/-- The default bucket (the `GCS_BUCKET_NAME` environment default). -/
def gcsBucketName : Chars := "wsi_bucket53".data

/-- `parse_gcs_location` (`app.py` lines 157-182): split a GCS URI into
bucket and slash-stripped object path; note that, unlike `is_gcs_path`,
this matches the scheme case-sensitively, and unknown shapes fall back to
the default configured bucket. -/
def parseGcsLocation (s : Chars) : Chars × Chars :=
  let raw := trimWs s
  if listStarts ("gs://".data) raw || listStarts ("gcs://".data) raw then
    let ws := ((splitOnceSub ("://".data) raw).map Prod.snd).getD []
    match splitOnceSub ("/".data) ws with
    | some pr => (pr.1, stripSlashes pr.2)
    | none => (ws, stripSlashes [])
  else if listStarts ("https://storage.googleapis.com/".data) raw then
    let wh := raw.drop ("https://storage.googleapis.com/".data).length
    match splitOnceSub ("/".data) wh with
    | some pr => (pr.1, stripSlashes pr.2)
    | none => (wh, stripSlashes [])
  else if listStarts ("https://storage.cloud.google.com/".data) raw then
    let wh := raw.drop ("https://storage.cloud.google.com/".data).length
    match splitOnceSub ("/".data) wh with
    | some pr => (pr.1, stripSlashes pr.2)
    | none => (wh, stripSlashes [])
  else (gcsBucketName, stripSlashes raw)

/-- `join_blob_path` (`app.py` lines 185-193). -/
def joinBlobPath (basePath fn : Chars) : Chars :=
  let p := stripSlashes basePath
  let f := stripSlashes fn
  if p = [] then f
  else if f = [] then p
  else p ++ ('/' :: f)

/-- The text after the last `/` (`Path(s).name`, `s.rsplit("/", 1)[-1]`). -/
def pathNameL (s : Chars) : Chars := (s.reverse.takeWhile (fun c => !(c == '/'))).reverse

/-- The text after the last `.` (`s.rsplit(".", 1)[-1]`). -/
def afterLastDotL (s : Chars) : Chars := (s.reverse.takeWhile (fun c => !(c == '.'))).reverse

/-- The recognized slide extensions (`ALLOWED_EXTENSIONS`). -/
def allowedExtsL : List Chars :=
  ["svs", "tif", "tiff", "vms", "vmu", "ndpi", "scn", "mrxs", "svslide", "bif"].map
    String.data

/-- `allowed_file` (`app.py` lines 249-250). -/
def allowedFileL (nm : Chars) : Bool :=
  nm.contains '.' && allowedExtsL.contains (lowerL (afterLastDotL nm))

/-- `Path.stem`: the name without its suffix; the suffix exists only when
the last dot is neither the first nor the last character. -/
def stemL (nm : Chars) : Chars :=
  match (nm.reverse.findIdx? (fun c => c == '.')).map (fun j => nm.length - 1 - j) with
  | some k => if 0 < k ∧ k < nm.length - 1 then nm.take k else nm
  | none => nm

/-- `bucket.blob(name).exists()`. -/
def blobExistsW (w : GcsWorld) (bucket nm : Chars) : Bool :=
  w.blobs.any (fun b => b.1 == bucket && b.2.1 == nm)

/-- `blob.size` after `reload()` (0 if absent). -/
def blobSizeW (w : GcsWorld) (bucket nm : Chars) : Nat :=
  match w.blobs.find? (fun b => b.1 == bucket && b.2.1 == nm) with
  | some b => b.2.2
  | none => 0

/-- `bucket.list_blobs(prefix=p)`: the blobs whose object name starts with
the given string, in the world's enumeration order. -/
def listBlobsW (w : GcsWorld) (bucket p : Chars) : List (Chars × Nat) :=
  w.blobs.filterMap
    (fun b => if b.1 == bucket && listStarts p b.2.1 then some b.2 else none)

/-! ## Source resolution (`find_file_in_session`, `list_slides`) -/

/-- What `find_file_in_session` returns: a GCS (bucket, blob path) pair or
a local candidate path (not yet resolved). -/
inductive FoundLoc where
  | gcsLoc (bucket : Chars) (blobPath : Chars)
  | localLoc (path : Segs)
deriving DecidableEq

/-- One iteration of the `find_file_in_session` loop (`app.py` lines
117-152) for a single configured slide path; `none` means the loop goes on
to the next source (including the `except ... continue` path taken when no
GCS client is available). -/
def matchSource (fs : FS) (w : GcsWorld) (sp : String) (fn : String) : Option FoundLoc :=
  if isGcsPath sp then
    if !w.available then none
    else
      let bo := parseGcsLocation sp.data
      if !bo.2.isEmpty && (pathNameL bo.2).contains '.' then
        if pathNameL bo.2 == fn.data && blobExistsW w bo.1 bo.2 then
          some (.gcsLoc bo.1 bo.2)
        else none
      else
        let bp := joinBlobPath bo.2 fn.data
        if blobExistsW w bo.1 bp then some (.gcsLoc bo.1 bp) else none
  else
    let p := pathSegs sp.data
    if memFiles fs (resolveSegs p) then
      if lastSegName p == fn.data then some (.localLoc p) else none
    else
      let fp := pyJoin p fn.data
      if existsFS fs fp then some (.localLoc fp) else none

/-- `find_file_in_session`: the first matching source wins via an early
return; exhaustion models the 404 `File not found` raised at the end. -/
def findFile (fs : FS) (w : GcsWorld) : List String → String → Option FoundLoc
  | [], _ => none
  | sp :: rest, fn =>
    match matchSource fs w sp fn with
    | some r => some r
    | none => findFile fs w rest fn

/-- The containment check of the local branch of `serve_raw_slide`
(`app.py` lines 720-747): the resolved candidate must equal a resolved
single-file source or lie under a resolved directory source; GCS entries
are skipped. -/
def isAuthorized (fs : FS) (fp : Segs) : List String → Bool
  | [] => false
  | sp :: rest =>
    (if isGcsPath sp then false
     else
       let rsp := resolveSegs (pathSegs sp.data)
       if memFiles fs rsp then resolveSegs fp == rsp
       else listStarts rsp (resolveSegs fp))
    || isAuthorized fs fp rest

/-- Classification of a `serve_raw_slide` request up to the point where
backend-specific streaming starts. -/
inductive AccessOutcome where
  | notFound
  | forbidden
  | localServe (path : Segs)
  | gcsServe (bucket blobPath : Chars)
deriving DecidableEq

/-- `serve_raw_slide` up to backend streaming: resolve the filename across
the session's slide paths (404 when nothing matches), then, for a local
hit, apply the containment check (403 `Access denied` on failure). -/
def serveAccess (fs : FS) (w : GcsWorld) (slidePaths : List String) (fn : String) :
    AccessOutcome :=
  match findFile fs w slidePaths fn with
  | none => .notFound
  | some (.gcsLoc b p) => .gcsServe b p
  | some (.localLoc fp) =>
    if isAuthorized fs fp slidePaths then .localServe fp else .forbidden

/-- One row of the `list_slides` response. -/
structure SlideEntry where
  name : Chars
  filename : Chars
  size : Nat
  viewable : Bool
deriving DecidableEq

/-- The filenames of a listing. -/
def entryNames (l : List SlideEntry) : List Chars := l.map SlideEntry.filename

/-- Append an entry unless its filename was already emitted; the code's
`seen_filenames` set holds exactly the filenames emitted so far. -/
def emitSlide (entries : List SlideEntry) (e : SlideEntry) : List SlideEntry :=
  if (entryNames entries).contains e.filename then entries else entries ++ [e]

/-- A filtered emission loop (the `for blob in blobs` and
`for fp in p.iterdir()` loops of `list_slides`). -/
def emitLoop {α : Type} (f : α → Option SlideEntry) (entries : List SlideEntry) :
    List α → List SlideEntry
  | [] => entries
  | x :: rest =>
    emitLoop f
      (match f x with
       | some e => emitSlide entries e
       | none => entries) rest

/-- Candidate entry from one listed blob (`app.py` lines 384-397). -/
def gcsDirCand (b : Chars × Nat) : Option SlideEntry :=
  let nm := pathNameL b.1
  if nm.isEmpty then none
  else if allowedFileL nm then some ⟨stemL nm, nm, b.2, true⟩
  else none

/-- Candidate entry from one directory child (`app.py` lines 418-426). -/
def localDirCand (c : Chars × Nat) : Option SlideEntry :=
  if allowedFileL c.1 then some ⟨stemL c.1, c.1, c.2, true⟩ else none

/-- The regular-file children of a resolved directory, in the world's
enumeration order (`p.iterdir()` filtered by `is_file()`). -/
def dirFileChildren (fs : FS) (rp : Segs) : List (Chars × Nat) :=
  fs.files.filterMap
    (fun e =>
      if e.1.length == rp.length + 1 && listStarts rp e.1 then
        some (lastSegName e.1, e.2)
      else none)

/-- One iteration of the `for slide_path in session.slide_paths` loop of
`list_slides` (`app.py` lines 350-426). -/
def listStep (fs : FS) (w : GcsWorld) (entries : List SlideEntry) (sp : String) :
    List SlideEntry :=
  if isGcsPath sp then
    if !w.available then entries
    else
      let bo := parseGcsLocation sp.data
      let isSingle := !bo.2.isEmpty && bo.2.contains '.' &&
        allowedExtsL.contains (lowerL (afterLastDotL bo.2))
      if isSingle then
        if blobExistsW w bo.1 bo.2 then
          emitSlide entries
            ⟨stemL (pathNameL bo.2), pathNameL bo.2, blobSizeW w bo.1 bo.2, true⟩
        else entries
      else emitLoop gcsDirCand entries (listBlobsW w bo.1 bo.2)
  else
    let p := pathSegs sp.data
    if !existsFS fs p then entries
    else if memFiles fs (resolveSegs p) then
      let nm := lastSegName p
      if allowedFileL nm then
        emitSlide entries ⟨stemL nm, nm, fileSizeFS fs (resolveSegs p), true⟩
      else entries
    else emitLoop localDirCand entries (dirFileChildren fs (resolveSegs p))

/-- `list_slides`: every slide path in declared order, all sharing one
deduplication set. -/
def listSlidesAux (fs : FS) (w : GcsWorld) (entries : List SlideEntry) :
    List String → List SlideEntry
  | [] => entries
  | sp :: rest => listSlidesAux fs w (listStep fs w entries sp) rest

/-- The full `list_slides` listing of a session. -/
def listSlides (fs : FS) (w : GcsWorld) (sps : List String) : List SlideEntry :=
  listSlidesAux fs w [] sps

/-- The filenames one source contributes on its own (processed with
nothing yet emitted). -/
def sourceNames (fs : FS) (w : GcsWorld) (sp : String) : List Chars :=
  entryNames (listStep fs w [] sp)

/-! ## Session registry (`session_manager.py`) and its endpoints -/

/-- The `Session` dataclass fields. -/
structure SessionObj where
  token : String
  slide_paths : List String
  overlay_paths : List String
  last_accessed : Int
  created_at : Int
deriving DecidableEq

/-- The value types appearing in a session summary. -/
inductive PyVal where
  | s (v : String)
  | sl (v : List String)
  | t (v : Int)
deriving DecidableEq

/-- Python attribute access on a `Session` instance: only the dataclass
fields exist; anything else raises `AttributeError` — in particular the
stale `slides_dir` and `single_slide` names used by `list_sessions`. -/
def sessionGetattr (x : SessionObj) (attr : String) : Except String PyVal :=
  if attr = "token" then .ok (.s x.token)
  else if attr = "slide_paths" then .ok (.sl x.slide_paths)
  else if attr = "overlay_paths" then .ok (.sl x.overlay_paths)
  else if attr = "last_accessed" then .ok (.t x.last_accessed)
  else if attr = "created_at" then .ok (.t x.created_at)
  else .error ("AttributeError: " ++ attr)

/-- The registry: an insertion-ordered token map plus the configured TTL
in minutes. -/
structure SessionManager where
  sessions : List (String × SessionObj)
  ttl_minutes : Int
deriving DecidableEq

/-- `self.sessions[token] = session`: replace in place or append. -/
def dictInsert (m : List (String × SessionObj)) (k : String) (v : SessionObj) :
    List (String × SessionObj) :=
  if m.any (fun q => q.1 == k) then m.map (fun q => if q.1 == k then (k, v) else q)
  else m ++ [(k, v)]

/-- Path segments rendered back to an absolute path string
(`str(p.resolve())`). -/
def segsToString (p : Segs) : String :=
  match p with
  | [] => "/"
  | _ => String.mk (p.foldl (fun acc seg => acc ++ ('/' :: seg)) [])

/-- Python `str.strip()` on a `String`. -/
def pyStrip (s : String) : String := String.mk (trimWs s.data)

/-- `SessionManager.create_session` (`session_manager.py` lines 83-128):
normalize the source lists (GCS kept as given, local slide paths resolved
when they exist and silently dropped otherwise, overlay paths kept only
when they are directories), then store the session under a fresh token.
The `uuid4` token and the two `utcnow()` readings taken by the dataclass
field factories (`last_accessed` first, then `created_at`) are parameters
of the model. -/
def SessionManager.create_session (mgr : SessionManager) (fs : FS)
    (slidePaths overlayPaths : List String) (token : String) (tLa tCa : Int) :
    SessionManager × SessionObj :=
  let normSlides := slidePaths.filterMap (fun path =>
    let ps := pyStrip path
    if isGcsPath ps then some ps
    else if existsFS fs (pathSegs ps.data) then
      some (segsToString (resolveSegs (pathSegs ps.data)))
    else none)
  let normOverlay := overlayPaths.filterMap (fun path =>
    if isGcsPath path then some path
    else if fs.dirs.contains (resolveSegs (pathSegs path.data)) then
      some (segsToString (resolveSegs (pathSegs path.data)))
    else none)
  let s : SessionObj := ⟨token, normSlides, normOverlay, tLa, tCa⟩
  (⟨dictInsert mgr.sessions token s, mgr.ttl_minutes⟩, s)

/-- `SessionManager.get_session`: lookup plus `touch()`, which mutates the
stored session's `last_accessed` to the current time. -/
def SessionManager.get_session (mgr : SessionManager) (token : String) (now : Int) :
    SessionManager × Option SessionObj :=
  match mgr.sessions.find? (fun q => q.1 == token) with
  | none => (mgr, none)
  | some q =>
    let s2 := { q.2 with last_accessed := now }
    (⟨mgr.sessions.map (fun r => if r.1 == token then (r.1, s2) else r),
        mgr.ttl_minutes⟩,
      some s2)

/-- `SessionManager.delete_session`: idempotent removal by token. -/
def SessionManager.delete_session (mgr : SessionManager) (token : String) :
    SessionManager × Bool :=
  if mgr.sessions.any (fun q => q.1 == token) then
    (⟨mgr.sessions.filter (fun q => !(q.1 == token)), mgr.ttl_minutes⟩, true)
  else (mgr, false)

/-- `SessionManager.cleanup_expired` (`session_manager.py` lines 143-152):
collect the tokens whose idle time strictly exceeds `ttl_minutes * 60`
seconds, then delete them one by one. -/
def SessionManager.cleanup_expired (mgr : SessionManager) (now : Int) :
    SessionManager × Nat :=
  let expired := (mgr.sessions.filter
    (fun q => decide (now - q.2.last_accessed > mgr.ttl_minutes * 60))).map Prod.fst
  (expired.foldl (fun m t => (SessionManager.delete_session m t).1) mgr, expired.length)

/-- Result of `POST /api/sessions`. -/
inductive CreateOutcome where
  | invalidPath (path : String)
  | created (token : String)
deriving DecidableEq

/-- The `create_session` endpoint (`app.py` lines 262-278): every local
slide path must exist, or the whole call fails with 400 `Path not found`
at the first offender before any state changes; otherwise the manager
stores a new session and the token is returned. -/
def createSessionEndpoint (fs : FS) (mgr : SessionManager) (slides : List String)
    (overlay : Option (List String)) (token : String) (tLa tCa : Int) :
    CreateOutcome × SessionManager :=
  match slides.find? (fun p => !isGcsPath p && !existsFS fs (pathSegs p.data)) with
  | some p => (.invalidPath p, mgr)
  | none =>
    let ov := overlay.getD []
    let r := SessionManager.create_session mgr fs slides ov token tLa tCa
    (.created r.2.token, r.1)

/-- One summary of `list_sessions` (`app.py` lines 303-309); the dict
literal evaluates its values in source order, so `s.slides_dir` is reached
right after `s.token`. -/
def sessionSummary (s : SessionObj) : Except String (List (String × PyVal)) := do
  let tok ← sessionGetattr s "token"
  let sd ← sessionGetattr s "slides_dir"
  let ss ← sessionGetattr s "single_slide"
  let ca ← sessionGetattr s "created_at"
  let la ← sessionGetattr s "last_accessed"
  pure [("token", tok), ("slides_dir", sd), ("single_slide", ss),
    ("created_at", ca), ("last_accessed", la)]

/-- `GET /api/sessions`: one summary per stored session; an exception from
any summary aborts the endpoint with HTTP 500. -/
def listSessionsEndpoint (mgr : SessionManager) :
    Except String (List (List (String × PyVal))) :=
  mgr.sessions.mapM (fun q => sessionSummary q.2)

/-! ## Concrete worlds used by the closed evaluations and witnesses -/

/-- No GCS client; no blobs. -/
def wEmpty : GcsWorld := ⟨false, []⟩

/-- One declared slide directory `/data` holding `x.svs`; nothing exists
at `/etc/passwd`. -/
def fsA : FS := ⟨[(["data".data, "x.svs".data], 5)], [["data".data]]⟩

/-- The slide directory `/data` exists, and a file `/secret/f.svs` exists
outside it. -/
def fsB : FS := ⟨[(["secret".data, "f.svs".data], 7)], [["data".data]]⟩

/-- Only the directory `/ok` exists. -/
def fsC : FS := ⟨[], [["ok".data]]⟩

/-- Two directories `/d1` and `/d2`, each holding its own `a.svs`. -/
def fsD : FS :=
  ⟨[(["d1".data, "a.svs".data], 3), (["d2".data, "a.svs".data], 4)],
    [["d1".data], ["d2".data]]⟩

/-- A session last touched at time 8140 (idle 1860 s at time 10000). -/
def sess31 : SessionObj := ⟨"a", [], [], 8140, 0⟩

/-- A session last touched at time 8260 (idle 1740 s at time 10000). -/
def sess29 : SessionObj := ⟨"b", [], [], 8260, 0⟩

/-- A registry with TTL 30 minutes holding the two sessions above. -/
def mgr31 : SessionManager := ⟨[("a", sess31), ("b", sess29)], 30⟩

/-- An arbitrary stored session for the `list_sessions` evaluation. -/
def sessDemo : SessionObj := ⟨"tok1", ["/data"], [], 100, 90⟩

/-- Claim C1 (code_bug): for a 10-byte object and header `bytes=2-5`, the
local backend serves exactly the 4 bytes at offsets 2..5, but the remote
backend serves 5 bytes (offsets 2..6), because
`blob.download_as_bytes(start, end + 1)` has an inclusive `end` parameter;
both label the response `Content-Range: bytes 2-5/10`.  The claim's
uniform exact-span behaviour holds locally and fails remotely. -/
theorem c1_gcs_inclusive_end_bug :
    serveLocalRange demo10 (some "bytes=2-5") =
      .partialContent [2, 3, 4, 5] 4 (contentRangeStr 2 5 10) ∧
    serveGcsRange demo10 (some "bytes=2-5") =
      .partialContent [2, 3, 4, 5, 6] 5 (contentRangeStr 2 5 10) := by
  constructor <;> rfl

/-- Claim C2, counterexample to the claim as stated: a resolved remote
object of total size 0 with range `bytes=0-` (START `0 ≥ N`) is answered
with 404, not with the claimed 416, because the GCS branch rejects empty
blobs before range processing. -/
theorem c2_empty_remote_gives_404 :
    serveGcsRange [] (some "bytes=0-") = .httpError 404 := by
  rfl

/-- Claim C2 (amended): for a parsed range with `START ≥ N`, or with
`START > END` after END has been clamped to `N - 1`, both backends respond
416 with `Content-Range: bytes */N` and an empty body — with the remote
backend additionally requiring `N ≥ 1`, since an empty remote object is
rejected as 404 before range processing. -/
theorem c2_range_not_satisfiable (content : List Nat) (h : String) (s e0 : Int)
    (hne : h ≠ "")
    (hp : parseStartEnd (content.length : Int) h = some (s, e0))
    (hcase : s ≥ (content.length : Int) ∨
      (0 ≤ s ∧ s > clampEnd (content.length : Int) e0)) :
    serveLocalRange content (some h) =
      .rangeNotSatisfiable (contentRangeStar (content.length : Int)) ∧
    respBody (serveLocalRange content (some h)) = [] ∧
    (content ≠ [] →
      serveGcsRange content (some h) =
        .rangeNotSatisfiable (contentRangeStar (content.length : Int)) ∧
      respBody (serveGcsRange content (some h)) = []) := by
  have hl : serveLocalRangeWith content h =
      .rangeNotSatisfiable (contentRangeStar (content.length : Int)) := by
    simp only [serveLocalRangeWith, hp]
    rcases hcase with hs | ⟨h0, hgt⟩
    · rw [if_pos (Or.inl hs)]
    · rcases le_or_lt (content.length : Int) s with hge | hlt
      · rw [if_pos (Or.inl hge)]
      · rw [if_neg (by omega), if_pos hgt]
  have hg : serveGcsRangeWith content h =
      .rangeNotSatisfiable (contentRangeStar (content.length : Int)) := by
    simp only [serveGcsRangeWith, hp]
    rcases hcase with hs | ⟨h0, hgt⟩
    · rw [if_pos (Or.inl hs)]
    · rcases le_or_lt (content.length : Int) s with hge | hlt
      · rw [if_pos (Or.inl hge)]
      · rw [if_neg (by omega), if_pos hgt]
  refine ⟨?_, ?_, ?_⟩
  · simp [serveLocalRange, hne, hl]
  · simp [serveLocalRange, hne, hl, respBody]
  · intro hc
    have hn0 : content.length ≠ 0 := by simpa using hc
    constructor
    · simp [serveGcsRange, hn0, hne, hg]
    · simp [serveGcsRange, hn0, hne, hg, respBody]

/-- Claim C2, witness: a 10-byte object with `bytes=1000-2000` yields 416
with `Content-Range: bytes */10` and an empty body on both backends. -/
theorem c2_range_not_satisfiable_witness :
    serveLocalRange demo10 (some "bytes=1000-2000") =
      .rangeNotSatisfiable (contentRangeStar 10) ∧
    respBody (serveLocalRange demo10 (some "bytes=1000-2000")) = [] ∧
    serveGcsRange demo10 (some "bytes=1000-2000") =
      .rangeNotSatisfiable (contentRangeStar 10) ∧
    respBody (serveGcsRange demo10 (some "bytes=1000-2000")) = [] := by
  have h := c2_range_not_satisfiable demo10 "bytes=1000-2000" 1000 2000
    (by decide) (by decide) (Or.inl (by decide))
  exact ⟨h.1, h.2.1, (h.2.2 (by decide)).1, (h.2.2 (by decide)).2⟩

/-- Claim C4, counterexample to the claim as stated: the malformed header
`bytes=abc-5` does not yield the claimed 416 outcome; the `ValueError`
from `int('abc')` reaches the catch-all handler and becomes a 500. -/
theorem c4_malformed_gives_500 :
    serveLocalRange demo10 (some "bytes=abc-5") = .httpError 500 ∧
    RangeResp.httpError 500 ≠ .rangeNotSatisfiable (contentRangeStar 10) := by
  constructor
  · rfl
  · decide

/-- Claim C4 (amended): a range header whose START or END text fails to
parse as an integer makes `int()` raise; the handler's catch-all converts
this into a 500 `Failed to serve file` error — not the 416-equivalent the
spec prescribes — on both backends (the remote one given a nonempty
object); it is never a partial success. -/
theorem c4_malformed_range_500 (content : List Nat) (h : String)
    (hp : parseStartEnd (content.length : Int) h = none) :
    serveLocalRange content (some h) = .httpError 500 ∧
    (content ≠ [] → serveGcsRange content (some h) = .httpError 500) := by
  have hne : h ≠ "" := by
    intro he
    subst he
    have hrp : rangeParts "" = [[]] := rfl
    simp [parseStartEnd, hrp] at hp
  constructor
  · simp [serveLocalRange, hne, serveLocalRangeWith, hp]
  · intro hc
    have hn0 : content.length ≠ 0 := by simpa using hc
    simp [serveGcsRange, hn0, hne, serveGcsRangeWith, hp]

/-- Claim C4, witness: `bytes=abc-5` on a 10-byte object gives 500 on both
backends. -/
theorem c4_malformed_range_500_witness :
    serveLocalRange demo10 (some "bytes=abc-5") = .httpError 500 ∧
    serveGcsRange demo10 (some "bytes=abc-5") = .httpError 500 := by
  have h := c4_malformed_range_500 demo10 "bytes=abc-5" (by decide)
  exact ⟨h.1, h.2 (by decide)⟩

/-- Claim C10, counterexample to the claim as stated: for the suffix-form
header `bytes=-3` on a 10-byte remote object, the body has 5 bytes
(offsets 0..4), not the claimed `K + 1 = 4`, because of the remote
backend's inclusive-end fetch. -/
theorem c10_remote_extra_byte :
    serveGcsRange demo10 (some "bytes=-3") =
      .partialContent [0, 1, 2, 3, 4] 5 (contentRangeStr 0 3 10) ∧
    (5 : Nat) ≠ 3 + 1 := by
  constructor
  · rfl
  · decide

/-- Claim C10 (amended): a suffix-form header `bytes=-K` with `K < N`
parses with the empty START as 0 and END as `K` (not as "last K bytes" per
the HTTP convention), so the local backend responds 206 with the first
`K + 1` bytes (offsets 0..K); the remote backend responds 206 with the
first `min (K + 2) N` bytes because of its inclusive-end fetch.  Both
label the response `Content-Range: bytes 0-K/N`. -/
theorem c10_suffix_form_serves_from_start (content : List Nat) (h : String)
    (ks : Chars) (K : Nat)
    (hparts : rangeParts h = [[], ks])
    (hk : pyInt ks = some (K : Int))
    (hlt : K < content.length) :
    serveLocalRange content (some h) =
      .partialContent (content.take (K + 1)) (K + 1)
        (contentRangeStr 0 (K : Int) (content.length : Int)) ∧
    serveGcsRange content (some h) =
      .partialContent (content.take (K + 2)) (min (K + 2) content.length)
        (contentRangeStr 0 (K : Int) (content.length : Int)) := by
  have hne : h ≠ "" := by
    intro he
    subst he
    have hrp : rangeParts "" = [[]] := rfl
    rw [hrp] at hparts
    simp at hparts
  have hksne : ks ≠ [] := by
    intro he
    subst he
    have : pyInt ([] : Chars) = none := rfl
    rw [this] at hk
    simp at hk
  have hp : parseStartEnd (content.length : Int) h = some (0, (K : Int)) := by
    simp [parseStartEnd, hparts, hksne, hk]
  have hKn : ¬ ((K : Int) ≥ (content.length : Int)) := by omega
  have hclamp : clampEnd (content.length : Int) (K : Int) = (K : Int) := by
    simp [clampEnd, hKn]
  have hn1 : ¬ ((0 : Int) ≥ (content.length : Int) ∨ (0 : Int) < 0) := by omega
  have hn2 : ¬ ((0 : Int) > clampEnd (content.length : Int) (K : Int)) := by
    rw [hclamp]
    omega
  have hlenpos : content.length ≠ 0 := by omega
  have hlocal : serveLocalRangeWith content h =
      .partialContent (content.take (K + 1)) (K + 1)
        (contentRangeStr 0 (K : Int) (content.length : Int)) := by
    simp only [serveLocalRangeWith, hp]
    rw [if_neg hn1, if_neg hn2, hclamp]
    have hbody : readBytesLocal content 0 (K : Int) = content.take (K + 1) := by
      unfold readBytesLocal
      have : ((K : Int) - 0 + 1).toNat = K + 1 := by omega
      rw [this]
      simp
    rw [hbody]
    have hlen : (content.take (K + 1)).length = K + 1 := by
      rw [List.length_take]
      omega
    rw [hlen]
  have hgcs : serveGcsRangeWith content h =
      .partialContent (content.take (K + 2)) (min (K + 2) content.length)
        (contentRangeStr 0 (K : Int) (content.length : Int)) := by
    simp only [serveGcsRangeWith, hp]
    rw [if_neg hn1, if_neg hn2, hclamp]
    have hbody : gcsDownloadBytes content 0 ((K : Int) + 1) = content.take (K + 2) := by
      unfold gcsDownloadBytes
      have : ((K : Int) + 1 - 0 + 1).toNat = K + 2 := by omega
      rw [this]
      simp
    rw [hbody]
    rw [List.length_take]
  constructor
  · simp [serveLocalRange, hne, hlocal]
  · simp [serveGcsRange, hlenpos, hne, hgcs]

/-- Claim C10, witness: `bytes=-3` on the 10-byte object serves the first
4 bytes locally and the first 5 bytes remotely, both labelled
`bytes 0-3/10`. -/
theorem c10_suffix_form_serves_from_start_witness :
    serveLocalRange demo10 (some "bytes=-3") =
      .partialContent [0, 1, 2, 3] 4 (contentRangeStr 0 3 10) ∧
    serveGcsRange demo10 (some "bytes=-3") =
      .partialContent [0, 1, 2, 3, 4] 5 (contentRangeStr 0 3 10) := by
  have h := c10_suffix_form_serves_from_start demo10 "bytes=-3" ['3'] 3
    rfl rfl (by decide)
  exact ⟨h.1.trans (by decide), h.2.trans (by decide)⟩

/-- `listStarts` is reflexive. -/
theorem listStarts_refl {α : Type} [BEq α] [LawfulBEq α] (l : List α) :
    listStarts l l = true := by
  induction l with
  | nil => rfl
  | cons a as ih => simp [listStarts, ih]

/-- If no resolved local source root is an initial run of the resolved
candidate, the containment check fails on every source. -/
theorem isAuthorized_eq_false (fs : FS) (fp : Segs) (sps : List String)
    (hout : ∀ sp ∈ sps, isGcsPath sp = false →
      listStarts (resolveSegs (pathSegs sp.data)) (resolveSegs fp) = false) :
    isAuthorized fs fp sps = false := by
  induction sps with
  | nil => rfl
  | cons sp rest ih =>
    have hrest := ih (fun q hq hg => hout q (List.mem_cons_of_mem _ hq) hg)
    by_cases hg : isGcsPath sp
    · simp [isAuthorized, hg, hrest]
    · have hsp := hout sp (List.mem_cons_self _ _) (by simp [hg])
      by_cases hf : memFiles fs (resolveSegs (pathSegs sp.data))
      · have hne : (resolveSegs fp == resolveSegs (pathSegs sp.data)) = false := by
          rw [beq_eq_false_iff_ne]
          intro he
          rw [← he] at hsp
          rw [listStarts_refl] at hsp
          cases hsp
        simp [isAuthorized, hg, hf, hne, hrest]
      · simp [isAuthorized, hg, hf, hsp, hrest]

/-- Claim C3, counterexample to the claim as stated: with `/data` as the
only (existing) local source root and no file at `/etc/passwd`, the
traversal filename `../etc/passwd` resolves outside the root, yet the
request is answered 404 NotFound — not the claimed 403 — because the
resolver requires an existing file before the containment check runs. -/
theorem c3_missing_target_gives_404 :
    resolveSegs (pyJoin (pathSegs "/data".data) "../etc/passwd".data) =
      ["etc".data, "passwd".data] ∧
    listStarts (resolveSegs (pathSegs "/data".data))
      (resolveSegs (pyJoin (pathSegs "/data".data) "../etc/passwd".data)) = false ∧
    serveAccess fsA wEmpty ["/data"] "../etc/passwd" = .notFound := by
  refine ⟨rfl, rfl, rfl⟩

/-- Claim C3 (amended): when the resolver finds a local candidate whose
resolved path lies outside every resolved local source root of the
session, `serve_raw_slide` responds 403 Forbidden (AccessDenied); but when
no source yields an existing candidate, the resolver raises 404 NotFound
first — so the 403 outcome requires a file to exist at the resolved
location, contrary to the claim's "regardless of existence". -/
theorem c3_containment (fs : FS) (w : GcsWorld) (sps : List String) (fn : String) :
    (∀ fp, findFile fs w sps fn = some (.localLoc fp) →
      (∀ sp ∈ sps, isGcsPath sp = false →
        listStarts (resolveSegs (pathSegs sp.data)) (resolveSegs fp) = false) →
      serveAccess fs w sps fn = .forbidden) ∧
    (findFile fs w sps fn = none → serveAccess fs w sps fn = .notFound) := by
  constructor
  · intro fp hfind hout
    have hna := isAuthorized_eq_false fs fp sps hout
    simp [serveAccess, hfind, hna]
  · intro hnone
    simp [serveAccess, hnone]

/-- Claim C3, witness: with `/data` as the only root and an existing file
`/secret/f.svs`, the traversal filename `../secret/f.svs` is found and
rejected with 403. -/
theorem c3_containment_witness :
    serveAccess fsB wEmpty ["/data"] "../secret/f.svs" = .forbidden := by
  exact (c3_containment fsB wEmpty ["/data"] "../secret/f.svs").1
    (pyJoin (pathSegs "/data".data) "../secret/f.svs".data) (by decide) (by decide)

/-- Claim C5: a create call whose slide list contains a non-existing local
path fails with InvalidPath naming the first such path, and the registry
is returned unchanged — no session is stored and no token issued. -/
theorem c5_create_invalid_path (fs : FS) (mgr : SessionManager)
    (pre post : List String) (p0 : String) (overlay : Option (List String))
    (token : String) (tLa tCa : Int)
    (hpre : ∀ q ∈ pre, isGcsPath q = true ∨ existsFS fs (pathSegs q.data) = true)
    (hg : isGcsPath p0 = false) (he : existsFS fs (pathSegs p0.data) = false) :
    createSessionEndpoint fs mgr (pre ++ p0 :: post) overlay token tLa tCa =
      (.invalidPath p0, mgr) := by
  have hfind : (pre ++ p0 :: post).find?
      (fun p => !isGcsPath p && !existsFS fs (pathSegs p.data)) = some p0 := by
    induction pre with
    | nil =>
      rw [List.nil_append]
      apply List.find?_cons_of_pos
      simp [hg, he]
    | cons q rest ih =>
      rw [List.cons_append, List.find?_cons_of_neg]
      · exact ih (fun r hr => hpre r (List.mem_cons_of_mem _ hr))
      · rcases hpre q (List.mem_cons_self _ _) with hq | hq <;> simp [hq]
  simp [createSessionEndpoint, hfind]

/-- Claim C5, witness: creating with slides `["/ok", "/missing"]`, where
only `/ok` exists, fails with InvalidPath `/missing` and leaves the empty
registry untouched. -/
theorem c5_create_invalid_path_witness :
    createSessionEndpoint fsC ⟨[], 30⟩ ["/ok", "/missing"] none "tok" 5 6 =
      (.invalidPath "/missing", ⟨[], 30⟩) := by
  exact c5_create_invalid_path fsC ⟨[], 30⟩ ["/ok"] [] "/missing" none "tok" 5 6
    (by decide) (by decide) (by decide)

/-- Deleting a token filters it out of the session map. -/
theorem delete_session_fst (mgr : SessionManager) (t : String) :
    (SessionManager.delete_session mgr t).1 =
      ⟨mgr.sessions.filter (fun q => !(q.1 == t)), mgr.ttl_minutes⟩ := by
  unfold SessionManager.delete_session
  by_cases h : mgr.sessions.any (fun q => q.1 == t) = true
  · rw [if_pos h]
  · rw [if_neg h]
    have hall : mgr.sessions.filter (fun q => !(q.1 == t)) = mgr.sessions := by
      apply List.filter_eq_self.mpr
      intro a ha
      rcases Bool.eq_false_or_eq_true (a.1 == t) with hb | hb
      · exact absurd (List.any_eq_true.mpr ⟨a, ha, hb⟩) h
      · simp [hb]
    rw [hall]

/-- Folding deletions over a token list filters all the listed keys. -/
theorem foldl_delete_sessions (ts : List String) (mgr : SessionManager) :
    ts.foldl (fun m t => (SessionManager.delete_session m t).1) mgr =
      ⟨mgr.sessions.filter (fun q => !(ts.contains q.1)), mgr.ttl_minutes⟩ := by
  induction ts generalizing mgr with
  | nil =>
    cases mgr
    simp
  | cons t rest ih =>
    rw [List.foldl_cons, delete_session_fst, ih]
    congr 1
    rw [List.filter_filter]
    apply List.filter_congr
    intro a _
    rw [List.contains_cons]
    rw [Bool.not_or]
    rw [Bool.and_comm]

/-- In a map with no duplicate keys, a key determines its value. -/
theorem key_unique {l : List (String × SessionObj)} (hnd : (l.map Prod.fst).Nodup)
    {t : String} {a b : SessionObj} (ha : (t, a) ∈ l) (hb : (t, b) ∈ l) : a = b := by
  induction l with
  | nil => exact absurd ha (List.not_mem_nil _)
  | cons x rest ih =>
    rw [List.map_cons, List.nodup_cons] at hnd
    rcases List.mem_cons.mp ha with h1 | h1
    · rcases List.mem_cons.mp hb with h2 | h2
      · rw [← h1] at h2
        exact (Prod.mk.injEq _ _ _ _ ▸ h2).2.symm
      · exfalso
        apply hnd.1
        rw [← h1]
        exact List.mem_map.mpr ⟨(t, b), h2, rfl⟩
    · rcases List.mem_cons.mp hb with h2 | h2
      · exfalso
        apply hnd.1
        rw [← h2]
        exact List.mem_map.mpr ⟨(t, a), h1, rfl⟩
      · exact ih hnd.2 h1 h2

/-- Claim C7: with TTL 30 minutes and distinct tokens, a sweep at time
`now` keeps exactly the sessions whose idle time is at most 1800 seconds —
sessions idle strictly longer are deleted. -/
theorem c7_cleanup_strict_threshold (mgr : SessionManager) (now : Int)
    (httl : mgr.ttl_minutes = 30)
    (hnd : (mgr.sessions.map Prod.fst).Nodup)
    (t : String) (s : SessionObj) :
    (t, s) ∈ ((SessionManager.cleanup_expired mgr now).1).sessions ↔
      ((t, s) ∈ mgr.sessions ∧ now - s.last_accessed ≤ 1800) := by
  have hform : ((SessionManager.cleanup_expired mgr now).1).sessions =
      mgr.sessions.filter (fun q => !(((mgr.sessions.filter
        (fun q => decide (now - q.2.last_accessed > mgr.ttl_minutes * 60))).map
          Prod.fst).contains q.1)) := by
    simp only [SessionManager.cleanup_expired]
    rw [foldl_delete_sessions]
  rw [hform, List.mem_filter]
  constructor
  · rintro ⟨hmem, hp⟩
    refine ⟨hmem, ?_⟩
    by_contra hgt
    push_neg at hgt
    have hin : t ∈ (mgr.sessions.filter
        (fun q => decide (now - q.2.last_accessed > mgr.ttl_minutes * 60))).map
          Prod.fst := by
      apply List.mem_map.mpr
      refine ⟨(t, s), List.mem_filter.mpr ⟨hmem, ?_⟩, rfl⟩
      rw [httl]
      simp
      omega
    rw [Bool.not_eq_true', ← Bool.not_eq_true] at hp
    exact hp (List.elem_iff.mpr hin)
  · rintro ⟨hmem, hle⟩
    refine ⟨hmem, ?_⟩
    rw [Bool.not_eq_true', ← Bool.not_eq_true]
    intro hc
    have hin := List.elem_iff.mp hc
    obtain ⟨q, hq, hq1⟩ := List.mem_map.mp hin
    have hqs := List.mem_filter.mp hq
    have hq1' : q.1 = t := hq1
    have hq2 : q = (t, q.2) := by
      rw [← hq1']
    have hsq : q.2 = s := by
      apply key_unique hnd _ hmem
      rw [← hq2]
      exact hqs.1
    have := hqs.2
    rw [httl, hq2, hsq] at this
    simp at this
    omega

/-- Claim C7, witness: at time 10000 with TTL 30 min, the session idle for
1860 s (31 min) is removed by the sweep and the one idle for 1740 s
(29 min) survives it. -/
theorem c7_cleanup_strict_threshold_witness :
    (("a", sess31) ∉ ((SessionManager.cleanup_expired mgr31 10000).1).sessions) ∧
    (("b", sess29) ∈ ((SessionManager.cleanup_expired mgr31 10000).1).sessions) := by
  constructor
  · intro hmem
    have h := (c7_cleanup_strict_threshold mgr31 10000 rfl (by decide) "a" sess31).mp hmem
    revert h
    decide
  · exact (c7_cleanup_strict_threshold mgr31 10000 rfl (by decide) "b" sess29).mpr
      ⟨by decide, by decide⟩

/-- Claim C8 (code_bug): `list_sessions` succeeds (with an empty snapshot)
on an empty registry, but on any registry holding a session it raises
`AttributeError` — surfaced as HTTP 500 — because the summary reads the
stale fields `slides_dir` and `single_slide`, which the `Session`
dataclass no longer has; it never returns the claimed snapshot. -/
theorem c8_list_sessions_attribute_error :
    listSessionsEndpoint ⟨[("tok1", sessDemo)], 30⟩ =
      .error "AttributeError: slides_dir" ∧
    listSessionsEndpoint ⟨[], 30⟩ = .ok [] := by
  constructor <;> rfl

/-- After `dictInsert`, looking the key up finds the inserted value. -/
theorem find?_map_replace (m : List (String × SessionObj)) (k : String)
    (v : SessionObj) (h : m.any (fun q => q.1 == k) = true) :
    (m.map (fun q => if q.1 == k then (k, v) else q)).find? (fun q => q.1 == k) =
      some (k, v) := by
  induction m with
  | nil => simp at h
  | cons x rest ih =>
    by_cases hx : (x.1 == k) = true
    · simp [List.find?, hx]
    · have hx' : (x.1 == k) = false := by simpa using hx
      have hne : x.1 ≠ k := by simpa using hx
      rw [List.any_cons, hx', Bool.false_or] at h
      rw [List.map_cons, List.find?_cons_of_neg]
      · exact ih h
      · simp [hne]

/-- Appending a fresh key makes it findable. -/
theorem find?_append_fresh (m : List (String × SessionObj)) (k : String)
    (v : SessionObj) (h : m.any (fun q => q.1 == k) = false) :
    (m ++ [(k, v)]).find? (fun q => q.1 == k) = some (k, v) := by
  induction m with
  | nil => simp [List.find?]
  | cons x rest ih =>
    rw [List.any_cons, Bool.or_eq_false_iff] at h
    rw [List.cons_append, List.find?_cons_of_neg, ih h.2]
    simp [h.1]

/-- `find?` after `dictInsert` returns the inserted binding. -/
theorem find?_dictInsert (m : List (String × SessionObj)) (k : String)
    (v : SessionObj) :
    (dictInsert m k v).find? (fun q => q.1 == k) = some (k, v) := by
  unfold dictInsert
  by_cases h : m.any (fun q => q.1 == k) = true
  · rw [if_pos h]
    exact find?_map_replace m k v h
  · rw [if_neg h]
    exact find?_append_fresh m k v (Bool.not_eq_true _ ▸ h)

/-- Claim C9: a `get` at time `tG` right after a create returns exactly
the created session touched to `tG`; the returned session carries the
created token and creation time and satisfies
`created_at ≤ last_accessed` whenever the clock did not go backwards
(`tCa ≤ tG`). -/
theorem c9_get_after_create (mgr : SessionManager) (fs : FS)
    (sp op : List String) (tok : String) (tLa tCa tG : Int) (hle : tCa ≤ tG) :
    ((SessionManager.get_session
        (SessionManager.create_session mgr fs sp op tok tLa tCa).1 tok tG).2 =
      some { (SessionManager.create_session mgr fs sp op tok tLa tCa).2 with
              last_accessed := tG }) ∧
    (∀ s, (SessionManager.get_session
        (SessionManager.create_session mgr fs sp op tok tLa tCa).1 tok tG).2 = some s →
      s.token = tok ∧ s.created_at = tCa ∧ s.created_at ≤ s.last_accessed) := by
  have hfind : (SessionManager.create_session mgr fs sp op tok tLa tCa).1.sessions.find?
      (fun q => q.1 == tok) =
      some (tok, (SessionManager.create_session mgr fs sp op tok tLa tCa).2) := by
    exact find?_dictInsert mgr.sessions tok _
  have hget : (SessionManager.get_session
      (SessionManager.create_session mgr fs sp op tok tLa tCa).1 tok tG).2 =
      some { (SessionManager.create_session mgr fs sp op tok tLa tCa).2 with
              last_accessed := tG } := by
    unfold SessionManager.get_session
    rw [hfind]
  refine ⟨hget, ?_⟩
  intro s hs
  rw [hget] at hs
  have hs' : s = _ := (Option.some.inj hs).symm
  subst hs'
  exact ⟨rfl, rfl, hle⟩

/-- Claim C9, witness: create at clock readings 5 and 6 then get at 9
returns the created session touched to 9, with `created_at = 6 ≤ 9`. -/
theorem c9_get_after_create_witness :
    (SessionManager.get_session
        (SessionManager.create_session ⟨[], 30⟩ fsC [] [] "tok" 5 6).1 "tok" 9).2 =
      some ⟨"tok", [], [], 9, 6⟩ := by
  have h := c9_get_after_create ⟨[], 30⟩ fsC [] [] "tok" 5 6 9 (by decide)
  exact h.1.trans (by decide)

/-- Filenames after one guarded emission: the old ones plus possibly the
new one. -/
theorem mem_entryNames_emitSlide (es : List SlideEntry) (e : SlideEntry) (x : Chars) :
    x ∈ entryNames (emitSlide es e) ↔ x ∈ entryNames es ∨ x = e.filename := by
  unfold emitSlide
  by_cases h : (entryNames es).contains e.filename = true
  · rw [if_pos h]
    constructor
    · exact Or.inl
    · rintro (hx | rfl)
      · exact hx
      · exact List.elem_iff.mp h
  · rw [if_neg h]
    unfold entryNames
    rw [List.map_append]
    simp

/-- Filenames after an emission loop split into the incoming ones and the
loop's own contribution. -/
theorem mem_entryNames_emitLoop {α : Type} (f : α → Option SlideEntry)
    (l : List α) (es : List SlideEntry) (x : Chars) :
    x ∈ entryNames (emitLoop f es l) ↔
      x ∈ entryNames es ∨ x ∈ entryNames (emitLoop f [] l) := by
  induction l generalizing es with
  | nil => simp [emitLoop, entryNames]
  | cons a rest ih =>
    cases hfa : f a with
    | none =>
      simp only [emitLoop, hfa]
      exact ih es
    | some e =>
      simp only [emitLoop, hfa]
      rw [ih (emitSlide es e), ih (emitSlide [] e)]
      rw [mem_entryNames_emitSlide, mem_entryNames_emitSlide]
      simp only [entryNames, List.map_nil, List.not_mem_nil, false_or]
      tauto

/-- Per-source decomposition of one `list_slides` iteration. -/
theorem mem_entryNames_listStep (fs : FS) (w : GcsWorld) (sp : String)
    (es : List SlideEntry) (x : Chars) :
    x ∈ entryNames (listStep fs w es sp) ↔
      x ∈ entryNames es ∨ x ∈ sourceNames fs w sp := by
  simp only [sourceNames, listStep]
  split_ifs <;>
    first
      | exact mem_entryNames_emitLoop _ _ es x
      | (rw [mem_entryNames_emitSlide, mem_entryNames_emitSlide]
         simp only [entryNames, List.map_nil, List.not_mem_nil, false_or])
      | simp [entryNames]

/-- A guarded emission preserves distinctness of the filenames. -/
theorem nodup_entryNames_emitSlide (es : List SlideEntry) (e : SlideEntry)
    (h : (entryNames es).Nodup) : (entryNames (emitSlide es e)).Nodup := by
  unfold emitSlide
  by_cases hc : (entryNames es).contains e.filename = true
  · rw [if_pos hc]
    exact h
  · rw [if_neg hc]
    have hnm : e.filename ∉ entryNames es := fun hm => hc (List.elem_iff.mpr hm)
    have hre : entryNames (es ++ [e]) = entryNames es ++ [e.filename] := by
      simp [entryNames]
    rw [hre, List.nodup_append]
    refine ⟨h, List.nodup_singleton _, ?_⟩
    intro a ha hb
    rw [List.mem_singleton] at hb
    subst hb
    exact hnm ha

/-- An emission loop preserves distinctness of the filenames. -/
theorem nodup_entryNames_emitLoop {α : Type} (f : α → Option SlideEntry)
    (l : List α) (es : List SlideEntry) (h : (entryNames es).Nodup) :
    (entryNames (emitLoop f es l)).Nodup := by
  induction l generalizing es with
  | nil => exact h
  | cons a rest ih =>
    cases hfa : f a with
    | none =>
      simp only [emitLoop, hfa]
      exact ih es h
    | some e =>
      simp only [emitLoop, hfa]
      exact ih _ (nodup_entryNames_emitSlide es e h)

/-- One `list_slides` iteration preserves distinctness of the filenames. -/
theorem nodup_entryNames_listStep (fs : FS) (w : GcsWorld) (sp : String)
    (es : List SlideEntry) (h : (entryNames es).Nodup) :
    (entryNames (listStep fs w es sp)).Nodup := by
  simp only [listStep]
  split_ifs <;>
    first
      | exact h
      | exact nodup_entryNames_emitSlide _ _ h
      | exact nodup_entryNames_emitLoop _ _ _ h

/-- The full listing never repeats a filename. -/
theorem nodup_entryNames_listSlidesAux (fs : FS) (w : GcsWorld) (sps : List String)
    (es : List SlideEntry) (h : (entryNames es).Nodup) :
    (entryNames (listSlidesAux fs w es sps)).Nodup := by
  induction sps generalizing es with
  | nil => exact h
  | cons sp rest ih => exact ih _ (nodup_entryNames_listStep fs w sp es h)

/-- A filename appears in the full listing exactly when some source
contributes it. -/
theorem mem_entryNames_listSlidesAux (fs : FS) (w : GcsWorld) (sps : List String)
    (es : List SlideEntry) (x : Chars) :
    x ∈ entryNames (listSlidesAux fs w es sps) ↔
      x ∈ entryNames es ∨ ∃ sp ∈ sps, x ∈ sourceNames fs w sp := by
  induction sps generalizing es with
  | nil => simp [listSlidesAux]
  | cons sp rest ih =>
    simp only [listSlidesAux]
    rw [ih, mem_entryNames_listStep]
    constructor
    · rintro ((hx | hx) | ⟨q, hq, hxq⟩)
      · exact Or.inl hx
      · exact Or.inr ⟨sp, List.mem_cons_self _ _, hx⟩
      · exact Or.inr ⟨q, List.mem_cons_of_mem _ hq, hxq⟩
    · rintro (hx | ⟨q, hq, hxq⟩)
      · exact Or.inl (Or.inl hx)
      · rcases List.mem_cons.mp hq with rfl | hq'
        · exact Or.inl (Or.inr hxq)
        · exact Or.inr ⟨q, hq', hxq⟩

/-- In a duplicate-free list, a present element is counted exactly once. -/
theorem count_eq_one_of_nodup_mem {α : Type} [BEq α] [LawfulBEq α] {l : List α}
    {a : α} (hnd : l.Nodup) (hm : a ∈ l) : l.count a = 1 := by
  induction l with
  | nil => cases hm
  | cons b rest ih =>
    rw [List.nodup_cons] at hnd
    rcases List.mem_cons.mp hm with rfl | hm'
    · rw [List.count_cons_self]
      have hz : rest.count a = 0 := by
        rw [List.count_eq_zero]
        exact hnd.1
      rw [hz]
    · rw [List.count_cons_of_ne]
      · exact ih hnd.2 hm'
      · intro he
        rw [he] at hm'
        exact hnd.1 hm'

/-- Sources that match nothing are skipped by the resolver's loop. -/
theorem findFile_append_first (fs : FS) (w : GcsWorld) (fn : String)
    (pre rest : List String) :
    (∀ q ∈ pre, matchSource fs w q fn = none) →
      findFile fs w (pre ++ rest) fn = findFile fs w rest fn := by
  induction pre with
  | nil => exact fun _ => rfl
  | cons q pre' ih =>
    intro hpre
    have hq := hpre q (List.mem_cons_self _ _)
    rw [List.cons_append]
    simp only [findFile, hq]
    exact ih (fun r hr => hpre r (List.mem_cons_of_mem _ hr))

/-- Claim C6: when two sources both contain the requested filename (both
as a resolver match and as a listing contribution) and no earlier source
matches it, resolution returns the first-listed source's match, and the
session's listing reports that filename exactly once. -/
theorem c6_first_match_and_dedup (fs : FS) (w : GcsWorld)
    (pre mid post : List String) (sp1 sp2 fn : String)
    (hpre : ∀ q ∈ pre, matchSource fs w q fn = none)
    (hm1 : (matchSource fs w sp1 fn).isSome = true)
    (hm2 : (matchSource fs w sp2 fn).isSome = true)
    (hl1 : fn.data ∈ sourceNames fs w sp1)
    (hl2 : fn.data ∈ sourceNames fs w sp2) :
    findFile fs w (pre ++ sp1 :: (mid ++ sp2 :: post)) fn = matchSource fs w sp1 fn ∧
    (entryNames (listSlides fs w (pre ++ sp1 :: (mid ++ sp2 :: post)))).count fn.data
      = 1 := by
  constructor
  · rw [findFile_append_first fs w fn pre (sp1 :: (mid ++ sp2 :: post)) hpre]
    obtain ⟨r, hr⟩ := Option.isSome_iff_exists.mp hm1
    simp [findFile, hr]
  · have hnd := nodup_entryNames_listSlidesAux fs w (pre ++ sp1 :: (mid ++ sp2 :: post))
      [] (by simp [entryNames])
    have hmem : fn.data ∈
        entryNames (listSlides fs w (pre ++ sp1 :: (mid ++ sp2 :: post))) := by
      rw [listSlides, mem_entryNames_listSlidesAux]
      refine Or.inr ⟨sp1, ?_, hl1⟩
      simp
    exact count_eq_one_of_nodup_mem hnd hmem

/-- Claim C6, witness: with `/d1` and `/d2` both holding `a.svs`,
resolution returns the `/d1` match and the listing carries `a.svs` exactly
once. -/
theorem c6_first_match_and_dedup_witness :
    findFile fsD wEmpty ["/d1", "/d2"] "a.svs" =
      matchSource fsD wEmpty "/d1" "a.svs" ∧
    (entryNames (listSlides fsD wEmpty ["/d1", "/d2"])).count "a.svs".data = 1 := by
  exact c6_first_match_and_dedup fsD wEmpty [] [] [] "/d1" "/d2" "a.svs"
    (by simp) (by decide) (by decide) (by decide) (by decide)
